import Mathlib

/-!
Verification of the kaleidoscope canvas (src/main.rs, src/shape.rs).

The Rust program stores heterogeneous shapes behind `Arc<RwLock<dyn Shape>>`
handles.  We embed it as a state machine:

* a `Slot` models one `RwLock<dyn Shape>` allocation: the stored shape value
  together with a `poisoned` flag (a poisoned lock is one whose `read()` /
  `write()` calls return `Err`, so `.ok()` yields `None`);
* a `Handle` is the address of a slot in the global allocation list (`Arc`
  identity is allocation identity: two handles alias exactly when they hold
  the same address, and cloning an `Arc` copies the address);
* `State` bundles the heap of all allocated slots with the canvas's retained
  list of handles (`Canvas.shapes` in the source);
* scalars (`f64`) are embedded as an ordered field, instantiated at `ℝ`
  (with `Real.pi` for `std::f64::consts::PI`) for numeric claims and at `ℚ`
  for executable witnesses.

Read operations (`get_area`, `get_origin`) are pure: they take the state and
return a value without producing a new state, which models that Rust's
`read()` path never mutates.  The write operation returns the successor state.
-/

namespace Kaleidoscope

/-- A concrete shape value, one constructor per `struct` in src/shape.rs
(`Circle`, `Rectangle`, `Triangle`); these are the `dyn Shape` trait objects
the canvas stores. -/
inductive ShapeVal (α : Type) where
  | circle (radius : α) (origin : α × α)
  | rectangle (width : α) (height : α) (origin : α × α)
  | triangle (base : α) (height : α) (origin : α × α)
deriving DecidableEq

/-- Trait method `get_area` from src/shape.rs: `PI * radius * radius` for
`Circle`, `width * height` for `Rectangle`, `0.5 * base * height` for
`Triangle`.  `pi` is the caller-supplied embedding of `std::f64::consts::PI`
(instantiated with `Real.pi` at `α := ℝ`). -/
def ShapeVal.get_area {α : Type} [Field α] (pi : α) : ShapeVal α → α
  | .circle r _ => pi * r * r
  | .rectangle w h _ => w * h
  | .triangle b h _ => (1 / 2 : α) * b * h

/-- Trait method `origin` from src/shape.rs: every variant returns its
`origin` field. -/
def ShapeVal.origin {α : Type} : ShapeVal α → α × α
  | .circle _ o => o
  | .rectangle _ _ o => o
  | .triangle _ _ o => o

/-- Trait method `set_origin` from src/shape.rs: every variant overwrites its
`origin` field and leaves the remaining fields untouched. -/
def ShapeVal.set_origin {α : Type} : ShapeVal α → α × α → ShapeVal α
  | .circle r _, o => .circle r o
  | .rectangle w h _, o => .rectangle w h o
  | .triangle b h _, o => .triangle b h o

/-- The Shape capability contract (the `Shape` trait of src/shape.rs) as a
record of pure operations on a carrier type `σ`: compute the measure, read the
position, replace the position.  Any Rust type implementing the trait is an
instance. -/
structure ShapeOps (α : Type) (σ : Type) where
  get_area : σ → α
  origin : σ → α × α
  set_origin : σ → α × α → σ

/-- The semantic laws the spec's capability contract imposes on an
implementation: `relocate` replaces the reference coordinate (so reading the
position afterwards yields exactly the new pair) and touches nothing the
measure depends on. -/
structure LawfulShape {α σ : Type} (ops : ShapeOps α σ) : Prop where
  origin_set : ∀ s o, ops.origin (ops.set_origin s o) = o
  area_set : ∀ s o, ops.get_area (ops.set_origin s o) = ops.get_area s

/-- The three concrete shapes packaged as a contract instance. -/
def ShapeVal.ops {α : Type} [Field α] (pi : α) : ShapeOps α (ShapeVal α) :=
  ⟨ShapeVal.get_area pi, ShapeVal.origin, ShapeVal.set_origin⟩

/-- One `RwLock<dyn Shape>` allocation: the stored shape and whether the lock
is poisoned (a holder panicked while holding the write lock, after which
`read()`/`write()` return `Err`). -/
structure Slot (σ : Type) where
  poisoned : Bool
  shape : σ

/-- A handle (`type Handle<S> = Arc<RwLock<S>>`) is the address of its slot
in the allocation list; `Arc` aliasing is address equality. -/
abbrev Handle : Type := Nat

/-- Cloning an `Arc` handle copies the address: the clone refers to the very
same slot. -/
def Handle.clone (h : Handle) : Handle := h

/-- Global state: the heap of every slot allocated so far (in allocation
order) together with the canvas's retained handle list (`Canvas.shapes`). -/
structure State (σ : Type) where
  store : List (Slot σ)
  shapes : List Handle

namespace Canvas

/-- `Canvas::new`: empty canvas, empty heap. -/
def new (σ : Type) : State σ := ⟨[], []⟩

/-- `Canvas::add`: allocate a fresh slot (`Arc::new(RwLock::from(shape))` —
a fresh lock is never poisoned), push a clone of the handle onto
`self.shapes`, and return the handle. -/
def add {σ : Type} (st : State σ) (s : σ) : State σ × Handle :=
  (⟨st.store ++ [⟨false, s⟩], st.shapes ++ [st.store.length]⟩, st.store.length)

/-- `shape.read().ok()`: acquire the read lock on the handle's slot; yields
the stored shape, or `none` when the lock is poisoned. -/
def readLock {σ : Type} (st : State σ) (h : Handle) : Option σ :=
  match st.store[h]? with
  | some slot => if slot.poisoned then none else some slot.shape
  | none => none

/-- `Canvas::get_area`: `shape.read().ok().map(|s| s.get_area())`. -/
def get_area {α σ : Type} (ops : ShapeOps α σ) (st : State σ) (h : Handle) :
    Option α :=
  (readLock st h).map ops.get_area

/-- `Canvas::get_origin`: `shape.read().ok().map(|s| s.origin())`. -/
def get_origin {α σ : Type} (ops : ShapeOps α σ) (st : State σ) (h : Handle) :
    Option (α × α) :=
  (readLock st h).map ops.origin

/-- `Canvas::set_origin`: `if let Some(mut s) = shape.write().ok()
{ s.set_origin(origin) }` — acquire the write lock; on success replace the
slot's shape by `s.set_origin(origin)` (releasing leaves the lock healthy);
if the lock is poisoned, silently do nothing. -/
def set_origin {α σ : Type} (ops : ShapeOps α σ) (st : State σ) (h : Handle)
    (o : α × α) : State σ :=
  match st.store[h]? with
  | some slot =>
      if slot.poisoned then st
      else { st with store := st.store.set h ⟨false, ops.set_origin slot.shape o⟩ }
  | none => st

end Canvas

/-- Direct slot access for reading the measure, written from the spec's words
for the bypass path: lock the slot through the handle itself and call
`get_area` on the shape, without going through the container. -/
def direct_get_area {α σ : Type} (ops : ShapeOps α σ) (st : State σ)
    (h : Handle) : Option α :=
  match st.store[h]? with
  | some slot => if slot.poisoned then none else some (ops.get_area slot.shape)
  | none => none

/-- Direct slot access for reading the position (bypassing the container). -/
def direct_get_origin {α σ : Type} (ops : ShapeOps α σ) (st : State σ)
    (h : Handle) : Option (α × α) :=
  match st.store[h]? with
  | some slot => if slot.poisoned then none else some (ops.origin slot.shape)
  | none => none

/-- Direct slot access for writing the position (bypassing the container):
acquire the write lock through the handle itself and call `set_origin` on the
shape. -/
def direct_set_origin {α σ : Type} (ops : ShapeOps α σ) (st : State σ)
    (h : Handle) (o : α × α) : State σ :=
  match st.store[h]? with
  | some slot =>
      if slot.poisoned then st
      else { st with store := st.store.set h ⟨false, ops.set_origin slot.shape o⟩ }
  | none => st

/-- Insert a whole list of shapes in order (iterated `Canvas::add`). -/
def addAll {σ : Type} (st : State σ) : List σ → State σ
  | [] => st
  | s :: rest => addAll (Canvas.add st s).1 rest

/-- Perform a list of position writes in order (iterated
`Canvas::set_origin`). -/
def writeAll {α σ : Type} (ops : ShapeOps α σ) (st : State σ) :
    List (Handle × (α × α)) → State σ
  | [] => st
  | (h, o) :: rest => writeAll ops (Canvas.set_origin ops st h o) rest

/-- A handle that dereferences to a slot is an address inside the heap. -/
theorem lt_length_of_store_some {σ : Type} {st : State σ} {h : Handle}
    {slot : Slot σ} (hs : st.store[h]? = some slot) : h < st.store.length := by
  rw [List.getElem?_eq_some] at hs
  exact hs.1

/-- Reading through the handle returned by `add` yields the freshly inserted
shape: the new slot sits at the end of the heap and its lock is healthy. -/
theorem readLock_add {σ : Type} (st : State σ) (s : σ) :
    Canvas.readLock (Canvas.add st s).1 (Canvas.add st s).2 = some s := by
  simp [Canvas.readLock, Canvas.add, List.getElem?_concat_length]

/-- Writing through handle `h` leaves every other slot of the heap exactly as
it was. -/
theorem set_origin_store_ne {α σ : Type} (ops : ShapeOps α σ) (st : State σ)
    (h h2 : Handle) (o : α × α) (hne : h ≠ h2) :
    (Canvas.set_origin ops st h o).store[h2]? = st.store[h2]? := by
  cases hs : st.store[h]? with
  | none => simp [Canvas.set_origin, hs]
  | some slot =>
      cases hp : slot.poisoned with
      | true => simp [Canvas.set_origin, hs, hp]
      | false => simp [Canvas.set_origin, hs, hp, List.getElem?_set_ne hne]

/-- Writing through a healthy handle replaces exactly that slot's shape by the
relocated shape, with the lock still healthy afterwards. -/
theorem set_origin_store_self {α σ : Type} (ops : ShapeOps α σ) {st : State σ}
    {h : Handle} {slot : Slot σ} (o : α × α)
    (hs : st.store[h]? = some slot) (hp : slot.poisoned = false) :
    (Canvas.set_origin ops st h o).store[h]? =
      some ⟨false, ops.set_origin slot.shape o⟩ := by
  have hlt := lt_length_of_store_some hs
  simp [Canvas.set_origin, hs, hp, List.getElem?_set_eq_of_lt _ hlt]

/-- Read lock after a successful write on the same handle: the relocated
shape. -/
theorem readLock_set_self {α σ : Type} (ops : ShapeOps α σ) {st : State σ}
    {h : Handle} {slot : Slot σ} (o : α × α)
    (hs : st.store[h]? = some slot) (hp : slot.poisoned = false) :
    Canvas.readLock (Canvas.set_origin ops st h o) h =
      some (ops.set_origin slot.shape o) := by
  simp [Canvas.readLock, set_origin_store_self ops o hs hp]

/-- Read lock on a handle distinct from the written one is undisturbed. -/
theorem readLock_set_ne {α σ : Type} (ops : ShapeOps α σ) (st : State σ)
    {h h2 : Handle} (o : α × α) (hne : h ≠ h2) :
    Canvas.readLock (Canvas.set_origin ops st h o) h2 =
      Canvas.readLock st h2 := by
  simp [Canvas.readLock, set_origin_store_ne ops st h h2 o hne]

/-- For a lawful contract instance, a position write never changes the
measure read through any handle, the written one included. -/
theorem get_area_set_origin {α σ : Type} {ops : ShapeOps α σ}
    (hl : LawfulShape ops) (st : State σ) (h h2 : Handle) (o : α × α) :
    Canvas.get_area ops (Canvas.set_origin ops st h o) h2 =
      Canvas.get_area ops st h2 := by
  by_cases hne : h = h2
  · subst hne
    cases hs : st.store[h]? with
    | none => simp [Canvas.get_area, Canvas.readLock, Canvas.set_origin, hs]
    | some slot =>
        cases hp : slot.poisoned with
        | true => simp [Canvas.get_area, Canvas.set_origin, hs, hp]
        | false =>
            rw [Canvas.get_area, readLock_set_self ops o hs hp,
              Canvas.get_area, Canvas.readLock, hs]
            simp [hp, hl.area_set]
  · rw [Canvas.get_area, readLock_set_ne ops st o hne, Canvas.get_area]

/-- `writeAll` never changes any measure (lawful contract instance). -/
theorem get_area_writeAll {α σ : Type} {ops : ShapeOps α σ}
    (hl : LawfulShape ops) (ws : List (Handle × (α × α))) :
    ∀ (st : State σ) (h2 : Handle),
      Canvas.get_area ops (writeAll ops st ws) h2 = Canvas.get_area ops st h2 := by
  induction ws with
  | nil => intro st h2; rfl
  | cons w rest ih =>
      intro st h2
      obtain ⟨h, o⟩ := w
      rw [writeAll, ih, get_area_set_origin hl]

/-- The three concrete shapes satisfy the capability contract laws. -/
theorem shapeVal_lawful {α : Type} [Field α] (pi : α) :
    LawfulShape (ShapeVal.ops pi) := by
  constructor
  · intro s o; cases s <;> rfl
  · intro s o; cases s <;> rfl

/-- Writing never touches the canvas's retained handle list. -/
theorem set_origin_shapes {α σ : Type} (ops : ShapeOps α σ) (st : State σ)
    (h : Handle) (o : α × α) :
    (Canvas.set_origin ops st h o).shapes = st.shapes := by
  cases hs : st.store[h]? with
  | none => simp [Canvas.set_origin, hs]
  | some slot =>
      cases hp : slot.poisoned with
      | true => simp [Canvas.set_origin, hs, hp]
      | false => simp [Canvas.set_origin, hs, hp]

/-- Writing never grows or shrinks the heap. -/
theorem set_origin_store_length {α σ : Type} (ops : ShapeOps α σ)
    (st : State σ) (h : Handle) (o : α × α) :
    (Canvas.set_origin ops st h o).store.length = st.store.length := by
  cases hs : st.store[h]? with
  | none => simp [Canvas.set_origin, hs]
  | some slot =>
      cases hp : slot.poisoned with
      | true => simp [Canvas.set_origin, hs, hp]
      | false => simp [Canvas.set_origin, hs, hp]

/-- Iterated insertion appends fresh healthy slots in order and appends the
matching run of handle addresses to the canvas's list. -/
theorem addAll_spec {σ : Type} (L : List σ) :
    ∀ st : State σ,
      (addAll st L).store = st.store ++ L.map (fun s => ⟨false, s⟩) ∧
      (addAll st L).shapes = st.shapes ++ List.range' st.store.length L.length := by
  induction L with
  | nil => intro st; simp [addAll]
  | cons s rest ih =>
      intro st
      have h := ih (Canvas.add st s).1
      rw [addAll]
      refine ⟨?_, ?_⟩
      · rw [h.1]
        simp [Canvas.add]
      · rw [h.2]
        simp [Canvas.add, List.range'_succ]

/-- Claim C1: for every contract instance and every shape value, inserting it
via `add` returns a handle through which `get_origin` immediately yields the
shape's initial origin and `get_area` its initial measure. -/
theorem C1_add_reads_initial_state {α σ : Type} (ops : ShapeOps α σ)
    (st : State σ) (s : σ) :
    Canvas.get_origin ops (Canvas.add st s).1 (Canvas.add st s).2 =
      some (ops.origin s) ∧
    Canvas.get_area ops (Canvas.add st s).1 (Canvas.add st s).2 =
      some (ops.get_area s) := by
  rw [Canvas.get_origin, Canvas.get_area, readLock_add st s]
  exact ⟨rfl, rfl⟩

/-- Claim C2: after a successful `set_origin` on a live, unpoisoned slot,
reading through the handle, through a clone of it, or after a write issued
through the clone, yields exactly the written pair, and a later write to any
other slot leaves that observation intact. -/
theorem C2_write_visibility {α σ : Type} (ops : ShapeOps α σ)
    (hl : LawfulShape ops) (st : State σ) (h : Handle) (slot : Slot σ)
    (P : α × α) (hs : st.store[h]? = some slot) (hp : slot.poisoned = false) :
    Canvas.get_origin ops (Canvas.set_origin ops st h P) h = some P ∧
    Canvas.get_origin ops (Canvas.set_origin ops st h P) (Handle.clone h) =
      some P ∧
    Canvas.get_origin ops (Canvas.set_origin ops st (Handle.clone h) P) h =
      some P ∧
    ∀ (h2 : Handle) (P2 : α × α), h2 ≠ h →
      Canvas.get_origin ops
        (Canvas.set_origin ops (Canvas.set_origin ops st h P) h2 P2) h =
        some P := by
  have hread : Canvas.get_origin ops (Canvas.set_origin ops st h P) h =
      some P := by
    rw [Canvas.get_origin, readLock_set_self ops P hs hp]
    simp [hl.origin_set]
  refine ⟨hread, hread, hread, ?_⟩
  intro h2 P2 hne
  rw [Canvas.get_origin, readLock_set_ne ops _ P2 hne,
    ← Canvas.get_origin, hread]

/-- Claim C3: writing the position of one slot changes neither the origin nor
the measure observed through a handle to a different slot, and two insertions
always return distinct handles, identical data or not. -/
theorem C3_independent_mutation {α σ : Type} (ops : ShapeOps α σ)
    (st : State σ) (h h2 : Handle) (P : α × α) (hne : h ≠ h2) :
    Canvas.get_origin ops (Canvas.set_origin ops st h P) h2 =
      Canvas.get_origin ops st h2 ∧
    Canvas.get_area ops (Canvas.set_origin ops st h P) h2 =
      Canvas.get_area ops st h2 ∧
    ∀ s1 s2 : σ,
      (Canvas.add st s1).2 ≠ (Canvas.add (Canvas.add st s1).1 s2).2 := by
  refine ⟨?_, ?_, ?_⟩
  · rw [Canvas.get_origin, readLock_set_ne ops st P hne, Canvas.get_origin]
  · rw [Canvas.get_area, readLock_set_ne ops st P hne, Canvas.get_area]
  · intro s1 s2
    simp [Canvas.add]

/-- Claim C5: through a handle to an existing slot, the reads `get_area` and
`get_origin` come back absent exactly when the slot's lock is poisoned, and a
`set_origin` on a poisoned slot is silently skipped: the state is returned
unchanged. -/
theorem C5_absent_iff_poisoned {α σ : Type} (ops : ShapeOps α σ)
    (st : State σ) (h : Handle) (slot : Slot σ)
    (hs : st.store[h]? = some slot) :
    (Canvas.get_area ops st h = none ↔ slot.poisoned = true) ∧
    (Canvas.get_origin ops st h = none ↔ slot.poisoned = true) ∧
    ∀ o : α × α, slot.poisoned = true → Canvas.set_origin ops st h o = st := by
  cases hp : slot.poisoned with
  | true =>
      refine ⟨by simp [Canvas.get_area, Canvas.readLock, hs, hp],
        by simp [Canvas.get_origin, Canvas.readLock, hs, hp], ?_⟩
      intro o _
      simp [Canvas.set_origin, hs, hp]
  | false =>
      refine ⟨by simp [Canvas.get_area, Canvas.readLock, hs, hp],
        by simp [Canvas.get_origin, Canvas.readLock, hs, hp], ?_⟩
      intro o hcontra
      simp at hcontra

/-- Claim C6: building a canvas by inserting a list of shapes stores them in
exactly insertion order as healthy slots, the retained handle list enumerates
exactly the addresses 0, 1, ..., N-1 of those slots, and a position write
never reorders, removes, or resizes either the handle list or the heap. -/
theorem C6_insertion_order {α σ : Type} (ops : ShapeOps α σ) :
    (∀ L : List σ,
      (addAll (Canvas.new σ) L).shapes = List.range L.length ∧
      (addAll (Canvas.new σ) L).store = L.map (fun s => ⟨false, s⟩)) ∧
    ∀ (st : State σ) (h : Handle) (o : α × α),
      (Canvas.set_origin ops st h o).shapes = st.shapes ∧
      (Canvas.set_origin ops st h o).store.length = st.store.length := by
  refine ⟨?_, ?_⟩
  · intro L
    have h := addAll_spec L (Canvas.new σ)
    refine ⟨?_, ?_⟩
    · rw [h.2]
      simp [Canvas.new, List.range_eq_range']
    · rw [h.1]
      simp [Canvas.new]
  · intro st h o
    exact ⟨set_origin_shapes ops st h o, set_origin_store_length ops st h o⟩

/-- Claim C7: the container's convenience methods coincide with direct slot
access through the handle, for reads and writes alike — the canvas never
mediates. -/
theorem C7_direct_access_equivalent {α σ : Type} (ops : ShapeOps α σ)
    (st : State σ) (h : Handle) :
    Canvas.get_area ops st h = direct_get_area ops st h ∧
    Canvas.get_origin ops st h = direct_get_origin ops st h ∧
    ∀ o : α × α, Canvas.set_origin ops st h o = direct_set_origin ops st h o := by
  refine ⟨?_, ?_, fun o => rfl⟩
  · cases hs : st.store[h]? with
    | none => simp [Canvas.get_area, Canvas.readLock, direct_get_area, hs]
    | some slot =>
        cases hp : slot.poisoned with
        | true => simp [Canvas.get_area, Canvas.readLock, direct_get_area, hs, hp]
        | false => simp [Canvas.get_area, Canvas.readLock, direct_get_area, hs, hp]
  · cases hs : st.store[h]? with
    | none => simp [Canvas.get_origin, Canvas.readLock, direct_get_origin, hs]
    | some slot =>
        cases hp : slot.poisoned with
        | true => simp [Canvas.get_origin, Canvas.readLock, direct_get_origin, hs, hp]
        | false => simp [Canvas.get_origin, Canvas.readLock, direct_get_origin, hs, hp]

/-- Claim C4 (counterexample): a `Rectangle` with a negative width already
violates the non-negativity promise — `get_area` on width `-4`, height `6`
returns `-24 < 0`.  (The code imposes no sign restriction on any field.) -/
theorem C4_negative_area_counterexample :
    ¬ (0 ≤ ShapeVal.get_area Real.pi (ShapeVal.rectangle (-4 : ℝ) 6 (0, 0))) := by
  simp only [ShapeVal.get_area]
  norm_num

/-- Claim C4 (amended): `get_area` is a pure total function of the shape's
own fields (determinism, totality and absence of side effects hold by
construction in the embedding); its value is non-negative for every circle
whenever `pi` is non-negative, and for rectangles and triangles whenever the
dimension fields are non-negative. -/
theorem C4_area_nonneg_amended {α : Type} [LinearOrderedField α]
    (pi : α) (hpi : 0 ≤ pi) :
    (∀ (r : α) (o : α × α), 0 ≤ ShapeVal.get_area pi (.circle r o)) ∧
    (∀ (w h : α) (o : α × α), 0 ≤ w → 0 ≤ h →
      0 ≤ ShapeVal.get_area pi (.rectangle w h o)) ∧
    (∀ (b h : α) (o : α × α), 0 ≤ b → 0 ≤ h →
      0 ≤ ShapeVal.get_area pi (.triangle b h o)) := by
  refine ⟨fun r o => ?_, fun w h o hw hh => ?_, fun b h o hb hh => ?_⟩
  · simp only [ShapeVal.get_area]
    rw [mul_assoc]
    exact mul_nonneg hpi (mul_self_nonneg r)
  · simp only [ShapeVal.get_area]
    exact mul_nonneg hw hh
  · simp only [ShapeVal.get_area]
    exact mul_nonneg (mul_nonneg (by norm_num) hb) hh

/-- Witness for the amended C4 at a concrete non-negative instance. -/
theorem C4_area_nonneg_witness :
    (0 : ℚ) ≤ 22 / 7 ∧ (0 : ℚ) ≤ 4 ∧ (0 : ℚ) ≤ 6 ∧
    0 ≤ ShapeVal.get_area (22 / 7 : ℚ) (.rectangle 4 6 (0, 0)) :=
  ⟨by norm_num, by norm_num, by norm_num,
    (C4_area_nonneg_amended (22 / 7 : ℚ) (by norm_num)).2.1 4 6 (0, 0)
      (by norm_num) (by norm_num)⟩

/-- Claim C8: on the spec's concrete scenario the measures are within
tolerance of 78.54 for the circle of radius 5, exactly 24 for the 4 by 6
rectangle and exactly 6 for the base-3 height-4 triangle, and `get_area`
computes `pi * r * r`, `w * h` and `0.5 * b * h` respectively. -/
theorem C8_concrete_measures :
    |ShapeVal.get_area Real.pi (ShapeVal.circle (5 : ℝ) (10, 10)) - 78.54| <
      1 / 100 ∧
    ShapeVal.get_area Real.pi (ShapeVal.rectangle (4 : ℝ) 6 (20, 20)) = 24 ∧
    ShapeVal.get_area Real.pi (ShapeVal.triangle (3 : ℝ) 4 (30, 30)) = 6 ∧
    (∀ (r : ℝ) (o : ℝ × ℝ),
      ShapeVal.get_area Real.pi (.circle r o) = Real.pi * r * r) ∧
    (∀ (w h : ℝ) (o : ℝ × ℝ),
      ShapeVal.get_area Real.pi (.rectangle w h o) = w * h) ∧
    (∀ (b h : ℝ) (o : ℝ × ℝ),
      ShapeVal.get_area Real.pi (.triangle b h o) = 1 / 2 * b * h) := by
  refine ⟨?_, by norm_num [ShapeVal.get_area], by norm_num [ShapeVal.get_area],
    fun r o => rfl, fun w h o => rfl, fun b h o => rfl⟩
  simp only [ShapeVal.get_area]
  rw [abs_lt]
  constructor <;> nlinarith [Real.pi_gt_d6, Real.pi_lt_d6]

/-- Claim C10: relocating a concrete shape rewrites only its origin — radius,
width, height and base survive unchanged, so the measure is identical before
and after — and consequently any sequence of canvas position writes leaves
every measure read through every handle unchanged. -/
theorem C10_write_preserves_measure {α : Type} [Field α] (pi : α) :
    (∀ (s : ShapeVal α) (o : α × α),
      ShapeVal.get_area pi (ShapeVal.set_origin s o) = ShapeVal.get_area pi s) ∧
    (∀ (r : α) (p o : α × α),
      ShapeVal.set_origin (.circle r p) o = .circle r o) ∧
    (∀ (w h : α) (p o : α × α),
      ShapeVal.set_origin (.rectangle w h p) o = .rectangle w h o) ∧
    (∀ (b h : α) (p o : α × α),
      ShapeVal.set_origin (.triangle b h p) o = .triangle b h o) ∧
    ∀ (st : State (ShapeVal α)) (ws : List (Handle × (α × α))) (h2 : Handle),
      Canvas.get_area (ShapeVal.ops pi) (writeAll (ShapeVal.ops pi) st ws) h2 =
        Canvas.get_area (ShapeVal.ops pi) st h2 := by
  refine ⟨?_, fun r p o => rfl, fun w h p o => rfl, fun b h p o => rfl, ?_⟩
  · intro s o
    cases s <;> rfl
  · intro st ws h2
    exact get_area_writeAll (shapeVal_lawful pi) ws st h2

/-- Witness for C2 on a one-slot rational canvas. -/
theorem C2_write_visibility_witness :
    ((⟨[⟨false, ShapeVal.circle (1 : ℚ) (0, 0)⟩], [0]⟩ :
        State (ShapeVal ℚ)).store[0]? =
      some ⟨false, ShapeVal.circle (1 : ℚ) (0, 0)⟩) ∧
    Canvas.get_origin (ShapeVal.ops (22 / 7 : ℚ))
      (Canvas.set_origin (ShapeVal.ops (22 / 7 : ℚ))
        ⟨[⟨false, ShapeVal.circle (1 : ℚ) (0, 0)⟩], [0]⟩ 0 (5, 6)) 0 =
      some (5, 6) :=
  ⟨rfl,
    (C2_write_visibility (ShapeVal.ops (22 / 7 : ℚ)) (shapeVal_lawful _)
      ⟨[⟨false, ShapeVal.circle (1 : ℚ) (0, 0)⟩], [0]⟩ 0
      ⟨false, ShapeVal.circle (1 : ℚ) (0, 0)⟩ (5, 6) rfl rfl).1⟩

/-- Witness for C3 on a two-slot rational canvas. -/
theorem C3_independent_mutation_witness :
    ((0 : Handle) ≠ 1) ∧
    Canvas.get_origin (ShapeVal.ops (22 / 7 : ℚ))
      (Canvas.set_origin (ShapeVal.ops (22 / 7 : ℚ))
        ⟨[⟨false, ShapeVal.circle (1 : ℚ) (0, 0)⟩,
          ⟨false, ShapeVal.rectangle (2 : ℚ) 3 (1, 1)⟩], [0, 1]⟩ 0 (9, 9)) 1 =
      Canvas.get_origin (ShapeVal.ops (22 / 7 : ℚ))
        ⟨[⟨false, ShapeVal.circle (1 : ℚ) (0, 0)⟩,
          ⟨false, ShapeVal.rectangle (2 : ℚ) 3 (1, 1)⟩], [0, 1]⟩ 1 :=
  ⟨by decide,
    (C3_independent_mutation (ShapeVal.ops (22 / 7 : ℚ))
      ⟨[⟨false, ShapeVal.circle (1 : ℚ) (0, 0)⟩,
        ⟨false, ShapeVal.rectangle (2 : ℚ) 3 (1, 1)⟩], [0, 1]⟩ 0 1 (9, 9)
      (by decide)).1⟩

/-- Witness for C5 on a poisoned one-slot rational canvas. -/
theorem C5_absent_iff_poisoned_witness :
    ((⟨[⟨true, ShapeVal.circle (1 : ℚ) (0, 0)⟩], [0]⟩ :
        State (ShapeVal ℚ)).store[0]? =
      some ⟨true, ShapeVal.circle (1 : ℚ) (0, 0)⟩) ∧
    (Canvas.get_area (ShapeVal.ops (22 / 7 : ℚ))
        ⟨[⟨true, ShapeVal.circle (1 : ℚ) (0, 0)⟩], [0]⟩ 0 = none ↔
      (true : Bool) = true) :=
  ⟨rfl,
    (C5_absent_iff_poisoned (ShapeVal.ops (22 / 7 : ℚ))
      ⟨[⟨true, ShapeVal.circle (1 : ℚ) (0, 0)⟩], [0]⟩ 0
      ⟨true, ShapeVal.circle (1 : ℚ) (0, 0)⟩ rfl).1⟩

end Kaleidoscope
